import Mathlib

/-!
# Verification of the monitoring MCP server core

Shallow embedding of the startup/transport core of the `monitoring`
repository (`src/mcp/src/*.ts`) and proofs of the spec's claims about it.

* `checkClickHouseHealth` — `src/mcp/src/clickhouse.ts`
* `ping`, `PingResult`    — `src/mcp/src/tools/ping.ts`
* `loadConfig`, `Config`  — `src/mcp/src/config.ts`
* `gateGo` / `runMain`    — the retry loop and startup sequence of `main`
  in `src/mcp/src/index.ts`
* `handleRequest`         — the HTTP router of `startHttpServer`
  (`src/mcp/src/transport.ts` is absent from the sources; modelled from
  the spec, see its doc comment)

Promises are embedded as values: an `async` operation that can reject is
an `Except String α`; one awaited probe outcome of the native
`client.ping()` is a `PingOutcome`.
-/

namespace Monitoring

/-- Outcome of one awaited call of the ClickHouse client's native
`client.ping()`: the promise either resolves with a record whose
`success` field is a boolean, or rejects with some error. -/
inductive PingOutcome where
  | resolved (success : Bool)
  | rejected
deriving DecidableEq, Repr

/-- The `try` body of `checkClickHouseHealth`:
`const result = await client.ping(); return result.success;` —
a rejected ping surfaces as an error at this point. -/
def clientPingSuccess (o : PingOutcome) : Except String Bool :=
  match o with
  | .resolved success => .ok success
  | .rejected => .error "ping rejected"

/-- `checkClickHouseHealth` from `src/mcp/src/clickhouse.ts`:
```
try { const result = await client.ping(); return result.success; }
catch { return false; }
```
The `Except` codomain records that the function *could* propagate an
error to its caller; the `catch` arm turns every rejection into
`.ok false`. -/
def checkClickHouseHealth (o : PingOutcome) : Except String Bool :=
  match clientPingSuccess o with
  | .ok b => .ok b
  | .error _ => .ok false

/-- `PingResult` from `src/mcp/src/tools/ping.ts`:
`{ status: "ok" | "error"; clickhouse: boolean; timestamp: string }`. -/
structure PingResult where
  status : String
  clickhouse : Bool
  timestamp : String
deriving DecidableEq, Repr

/-- `ping` from `src/mcp/src/tools/ping.ts`:
```
const clickhouse = await checkClickHouseHealth(client);
return { status: clickhouse ? "ok" : "error", clickhouse,
         timestamp: new Date().toISOString() };
```
`now` stands for `new Date().toISOString()` at the moment the result is
produced; had `checkClickHouseHealth` rejected, `ping` would reject too
(the `Except` bind). -/
def ping (o : PingOutcome) (now : String) : Except String PingResult :=
  match checkClickHouseHealth o with
  | .error e => .error e
  | .ok clickhouse =>
      .ok { status := if clickhouse then "ok" else "error"
            clickhouse := clickhouse
            timestamp := now }

/-- `Config` from `src/mcp/src/config.ts` (`z.infer<typeof configSchema>`):
`clickhouseUrl : string`, `mcpApiKey : string`, `mcpPort : number`
(the port is integer-valued after `z.coerce.number().int().positive()`). -/
structure Config where
  clickhouseUrl : String
  mcpApiKey : String
  mcpPort : Int
deriving DecidableEq, Repr

/-- The relevant slice of `process.env`: each of the three variables read
by `loadConfig` is either unset (`none`) or set to a string. -/
structure RawEnv where
  CLICKHOUSE_URL : Option String
  MCP_API_KEY : Option String
  MCP_PORT : Option String
deriving DecidableEq, Repr

/-- The JavaScript expression `x || undefined` on a string-or-undefined
value: the empty string is falsy, so it is coerced to `undefined`. -/
def orUndefined (x : Option String) : Option String :=
  match x with
  | none => none
  | some s => if s = "" then none else some s

/-- The `clickhouseUrl` field of `configSchema`:
`z.string().url().default("http://localhost:8123")`. `isValidUrl` is the
collaborator predicate behind zod's `.url()` check (`new URL(s)` parse of
an absolute URL); it is a parameter because its exact grammar belongs to
the platform, not this repository. -/
def parseUrlField (isValidUrl : String → Bool) :
    Option String → Except String String
  | none => .ok "http://localhost:8123"
  | some s => if isValidUrl s then .ok s else .error "Invalid url"

/-- The `mcpApiKey` field of `configSchema`:
`z.string().min(1, "MCP_API_KEY is required")` — an unset variable fails
the `z.string()` type check, a set one must have length ≥ 1. -/
def parseApiKeyField : Option String → Except String String
  | none => .error "Required"
  | some s => if 1 ≤ s.length then .ok s else .error "MCP_API_KEY is required"

/-- The `mcpPort` field of `configSchema`:
`z.coerce.number().int().positive().default(3001)`. `jsNumber` is the
collaborator function behind `Number(s)`: `some q` when the coercion
yields a finite number `q`, `none` when it yields `NaN` or an infinity
(which `z.number()` rejects); `.int()` then requires denominator 1 and
`.positive()` requires `0 < q`. -/
def parsePortField (jsNumber : String → Option ℚ) :
    Option String → Except String Int
  | none => .ok 3001
  | some s =>
      match jsNumber s with
      | none => .error "Expected number"
      | some q =>
          if q.den = 1 then
            if 0 < q then .ok q.num else .error "Number must be greater than 0"
          else .error "Expected integer"

/-- `configSchema.parse` on an input object: all three fields must
validate; any failure aborts with an error and no `Config` is built. -/
def parseConfig (isValidUrl : String → Bool) (jsNumber : String → Option ℚ)
    (clickhouseUrl mcpApiKey mcpPort : Option String) :
    Except String Config :=
  match parseUrlField isValidUrl clickhouseUrl with
  | .error e => .error e
  | .ok url =>
      match parseApiKeyField mcpApiKey with
      | .error e => .error e
      | .ok key =>
          match parsePortField jsNumber mcpPort with
          | .error e => .error e
          | .ok port =>
              .ok { clickhouseUrl := url, mcpApiKey := key, mcpPort := port }

/-- `loadConfig` from `src/mcp/src/config.ts`:
```
return configSchema.parse({
  clickhouseUrl: process.env.CLICKHOUSE_URL || undefined,
  mcpApiKey: process.env.MCP_API_KEY,
  mcpPort: process.env.MCP_PORT || undefined,
});
```
Note the `|| undefined` on `CLICKHOUSE_URL` and `MCP_PORT` but not on
`MCP_API_KEY`. -/
def loadConfig (isValidUrl : String → Bool) (jsNumber : String → Option ℚ)
    (env : RawEnv) : Except String Config :=
  parseConfig isValidUrl jsNumber
    (orUndefined env.CLICKHOUSE_URL) env.MCP_API_KEY (orUndefined env.MCP_PORT)

/-- Observable events of `main` in `src/mcp/src/index.ts`, in execution
order: a probe call `checkClickHouseHealth(clickhouse)` on a given
attempt with its boolean result, the `setTimeout` sleep between
attempts, the operator-facing `console.error` naming the attempt count
on exhaustion, the `startHttpServer` bind, and `process.exit`.
(The routine `console.log` progress messages are not modelled.) -/
inductive Event where
  | probeCall (attempt : Nat) (result : Bool)
  | sleep (ms : Nat)
  | errorLog (attempts : Nat)
  | listen (port : Int)
  | exit (code : Nat)
deriving DecidableEq, Repr

/-- The retry loop of `main`:
```
for (let i = 1; i <= maxAttempts; i++) {
  healthy = await checkClickHouseHealth(clickhouse);
  if (healthy) break;
  if (i < maxAttempts) { await new Promise((r) => setTimeout(r, delayMs)); }
}
```
`probe i` is the boolean the probe resolves with on attempt `i` (by
`checkHealth_never_throws` the probe always resolves). `i` is the
current attempt number and `remaining` the number of attempts still
allowed (`maxAttempts - i + 1`); `remaining = 0` means the loop guard
`i <= maxAttempts` failed. Returns the event trace of the loop and the
final value of `healthy`. -/
def gateGo (probe : Nat → Bool) (delayMs : Nat) : Nat → Nat → List Event × Bool
  | _, 0 => ([], false)
  | i, remaining + 1 =>
      if probe i then ([.probeCall i true], true)
      else if remaining = 0 then ([.probeCall i false], false)
      else
        let rest := gateGo probe delayMs (i + 1) remaining
        (.probeCall i false :: .sleep delayMs :: rest.1, rest.2)

/-- The startup gate: the retry loop of `main` started at attempt 1 with
a budget of `maxAttempts` attempts. -/
def startupGate (probe : Nat → Bool) (maxAttempts delayMs : Nat) :
    List Event × Bool :=
  gateGo probe delayMs 1 maxAttempts

/-- `const maxAttempts = 30;` in `main` (`src/mcp/src/index.ts`). -/
def mainMaxAttempts : Nat := 30

/-- `const delayMs = 2000;` in `main` (`src/mcp/src/index.ts`). -/
def mainDelayMs : Nat := 2000

/-- The startup sequence of `src/mcp/src/index.ts` as an event trace.
`cfgRes` is the outcome of `loadConfig()` (a throw there rejects `main`,
which `main().catch` turns into `process.exit(1)` with no listener ever
bound). On a loaded config, the gate runs with the hard-coded policy;
if it ends unhealthy, `main` logs the operator-facing failure naming
the attempt count and exits with code 1; otherwise `startHttpServer`
binds the configured port. (`createClickHouseClient` performs no I/O
and is not an observable event.) -/
def runMain (cfgRes : Except String Config) (probe : Nat → Bool) :
    List Event :=
  match cfgRes with
  | .error _ => [.exit 1]
  | .ok config =>
      let gate := startupGate probe mainMaxAttempts mainDelayMs
      if gate.2 then gate.1 ++ [.listen config.mcpPort]
      else gate.1 ++ [.errorLog mainMaxAttempts, .exit 1]

/-- The trace of `n` consecutive failed attempts starting at attempt
`i`, each followed by the fixed delay: the shape of every non-final
segment of the gate's trace. -/
def failEvents (delayMs i : Nat) : Nat → List Event
  | 0 => []
  | n + 1 => .probeCall i false :: .sleep delayMs :: failEvents delayMs (i + 1) n

/-- Number of probe calls in a trace. -/
def probeCount (es : List Event) : Nat :=
  es.countP fun e => match e with | .probeCall _ _ => true | _ => false

/-- Number of sleeps in a trace. -/
def sleepCount (es : List Event) : Nat :=
  es.countP fun e => match e with | .sleep _ => true | _ => false

/-- An inbound HTTP request as the transport sees it: method, path and
the value of the `Authorization` header if one was presented. -/
structure HttpRequest where
  method : String
  path : String
  authorization : Option String
deriving DecidableEq, Repr

/-- Body of an HTTP response: the liveness body `{ status: "ok" }`, the
empty/minimal body of a rejection, or the protocol layer's serialized
result for the dispatched `ping` capability. -/
inductive ResponseBody where
  | statusOk
  | empty
  | toolResult (r : PingResult)
deriving DecidableEq, Repr

/-- An HTTP response together with whether the request was handed to the
protocol tool registry (`dispatched`), which is what distinguishes a
rejection issued before any protocol message is parsed. -/
structure HttpResponse where
  status : Nat
  body : ResponseBody
  dispatched : Bool
deriving DecidableEq, Repr

/-- Modelled from the spec: `startHttpServer` lives in
`src/mcp/src/transport.ts`, which is not among the sources (only its
callers and `tests/unit/auth.test.ts` are). Per §4.4/§6 of the spec this
is the per-request behavior of the listener it binds: `GET /health` →
`200 { status: "ok" }` with no authentication; `POST /mcp` → `401` with
a minimal body unless the `Authorization` header exactly equals
`"Bearer " ++ secret` (case-sensitive exact-string compare), in which
case the request is dispatched to the tool registry, whose only
capability is `ping`. `secret` is the configured `mcpApiKey`, `o` the
backing store's reachability outcome at dispatch time, `now` the
timestamp at which the ping result is produced. Requests to any other
route are not specified; they are modelled as a non-dispatching 404. -/
def handleRequest (secret : String) (o : PingOutcome) (now : String)
    (req : HttpRequest) : HttpResponse :=
  if req.method = "GET" ∧ req.path = "/health" then
    { status := 200, body := .statusOk, dispatched := false }
  else if req.method = "POST" ∧ req.path = "/mcp" then
    match req.authorization with
    | none => { status := 401, body := .empty, dispatched := false }
    | some v =>
        if v = "Bearer " ++ secret then
          match ping o now with
          | .ok r => { status := 200, body := .toolResult r, dispatched := true }
          | .error _ => { status := 500, body := .empty, dispatched := true }
        else { status := 401, body := .empty, dispatched := false }
  else { status := 404, body := .empty, dispatched := false }

lemma probeCount_append (l1 l2 : List Event) :
    probeCount (l1 ++ l2) = probeCount l1 + probeCount l2 := by
  simp [probeCount, List.countP_append]

lemma sleepCount_append (l1 l2 : List Event) :
    sleepCount (l1 ++ l2) = sleepCount l1 + sleepCount l2 := by
  simp [sleepCount, List.countP_append]

lemma probeCount_failEvents (d i n : Nat) :
    probeCount (failEvents d i n) = n := by
  induction n generalizing i with
  | zero => rfl
  | succ m ih => simp [failEvents, probeCount, List.countP_cons] at ih ⊢
                 exact ih (i + 1)

lemma sleepCount_failEvents (d i n : Nat) :
    sleepCount (failEvents d i n) = n := by
  induction n generalizing i with
  | zero => rfl
  | succ m ih => simp [failEvents, sleepCount, List.countP_cons] at ih ⊢
                 exact ih (i + 1)

lemma mem_failEvents {e : Event} {d i n : Nat} (h : e ∈ failEvents d i n) :
    (∃ j, i ≤ j ∧ j < i + n ∧ e = .probeCall j false) ∨ e = .sleep d := by
  induction n generalizing i with
  | zero => simp [failEvents] at h
  | succ m ih =>
      simp only [failEvents, List.mem_cons] at h
      rcases h with h | h | h
      · exact .inl ⟨i, le_rfl, by omega, h⟩
      · exact .inr h
      · rcases ih h with ⟨j, hj1, hj2, hj3⟩ | h'
        · exact .inl ⟨j, by omega, by omega, hj3⟩
        · exact .inr h'

lemma getLast?_append_singleton (l : List Event) (a : Event) :
    (l ++ [a]).getLast? = some a := by
  induction l with
  | nil => rfl
  | cons b t ih =>
      rcases t with _ | ⟨c, t⟩ <;> simp_all

lemma gateGo_success (probe : Nat → Bool) (d : Nat) :
    ∀ rem i K, i ≤ K → K < i + rem →
      (∀ j, i ≤ j → j < K → probe j = false) → probe K = true →
      gateGo probe d i rem =
        (failEvents d i (K - i) ++ [Event.probeCall K true], true) := by
  intro rem
  induction rem with
  | zero => intro i K h1 h2 _ _; omega
  | succ n ih =>
      intro i K h1 h2 hfail hK
      rcases Nat.eq_or_lt_of_le h1 with heq | hlt
      · subst heq
        simp [gateGo, hK, failEvents]
      · have hpi : probe i = false := hfail i le_rfl hlt
        have hn : n ≠ 0 := by omega
        have hrec := ih (i + 1) K (by omega) (by omega)
          (fun j hj1 hj2 => hfail j (by omega) hj2) hK
        have hKi : K - i = (K - (i + 1)) + 1 := by omega
        simp [gateGo, hpi, hn, hrec, hKi, failEvents]

lemma gateGo_fail (probe : Nat → Bool) (d : Nat) :
    ∀ rem i, 1 ≤ rem →
      (∀ j, i ≤ j → j < i + rem → probe j = false) →
      gateGo probe d i rem =
        (failEvents d i (rem - 1) ++
          [Event.probeCall (i + (rem - 1)) false], false) := by
  intro rem
  induction rem with
  | zero => intro i h _; omega
  | succ n ih =>
      intro i _ hfail
      have hpi : probe i = false := hfail i le_rfl (by omega)
      rcases Nat.eq_zero_or_pos n with hn | hn
      · subst hn
        simp [gateGo, hpi, failEvents]
      · have hn' : n ≠ 0 := by omega
        have hrec := ih (i + 1) hn
          (fun j hj1 hj2 => hfail j (by omega) (by omega))
        have hn1 : n - 1 + 1 = n := by omega
        have hi1 : i + 1 + (n - 1) = i + n := by omega
        simp only [gateGo, hpi, hn', if_neg, if_false, Bool.false_eq_true,
          hrec, hi1, Nat.succ_sub_one]
        rw [← hn1]
        simp [failEvents, hn1, hi1]

lemma gateGo_snd_true_iff (probe : Nat → Bool) (d : Nat) :
    ∀ rem i, (gateGo probe d i rem).2 = true ↔
      ∃ K, i ≤ K ∧ K < i + rem ∧ probe K = true := by
  intro rem
  induction rem with
  | zero =>
      intro i
      simp only [gateGo]
      constructor
      · intro h; exact absurd h (by simp)
      · rintro ⟨K, h1, h2, _⟩; omega
  | succ n ih =>
      intro i
      by_cases hpi : probe i = true
      · simp only [gateGo, hpi, if_true]
        exact ⟨fun _ => ⟨i, le_rfl, by omega, hpi⟩, fun _ => trivial⟩
      · rcases Nat.eq_zero_or_pos n with hn | hn
        · subst hn
          simp only [gateGo, hpi, if_false]
          constructor
          · intro h; exact absurd h (by simp)
          · rintro ⟨K, h1, h2, hK⟩
            have : K = i := by omega
            subst this
            exact absurd hK hpi
        · have hn' : n ≠ 0 := by omega
          simp only [gateGo, hpi, hn', if_false, Bool.false_eq_true]
          rw [ih (i + 1)]
          constructor
          · rintro ⟨K, h1, h2, hK⟩
            exact ⟨K, by omega, by omega, hK⟩
          · rintro ⟨K, h1, h2, hK⟩
            have : i ≠ K := fun he => hpi (he ▸ hK)
            exact ⟨K, by omega, by omega, hK⟩

lemma mem_gateGo_shape (probe : Nat → Bool) (d : Nat) :
    ∀ rem i e, e ∈ (gateGo probe d i rem).1 →
      (∃ j r, e = .probeCall j r) ∨ ∃ ms, e = .sleep ms := by
  intro rem
  induction rem with
  | zero => intro i e h; simp [gateGo] at h
  | succ n ih =>
      intro i e h
      by_cases hpi : probe i = true
      · simp [gateGo, hpi] at h
        exact .inl ⟨i, true, h⟩
      · rcases Nat.eq_zero_or_pos n with hn | hn
        · subst hn
          simp [gateGo, hpi] at h
          exact .inl ⟨i, false, h⟩
        · have hn' : n ≠ 0 := by omega
          simp only [gateGo, hpi, hn', if_false, Bool.false_eq_true,
            List.mem_cons] at h
          rcases h with h | h | h
          · exact .inl ⟨i, false, h⟩
          · exact .inr ⟨d, h⟩
          · exact ih (i + 1) e h

lemma gateGo_snd_true_getLast (probe : Nat → Bool) (d : Nat) :
    ∀ rem i, (gateGo probe d i rem).2 = true →
      ∃ K, probe K = true ∧
        (gateGo probe d i rem).1.getLast? = some (.probeCall K true) := by
  intro rem
  induction rem with
  | zero => intro i h; simp [gateGo] at h
  | succ n ih =>
      intro i h
      by_cases hpi : probe i = true
      · exact ⟨i, hpi, by simp [gateGo, hpi]⟩
      · rcases Nat.eq_zero_or_pos n with hn | hn
        · subst hn; simp [gateGo, hpi] at h
        · have hn' : n ≠ 0 := by omega
          simp only [gateGo, hpi, hn', if_false, Bool.false_eq_true] at h ⊢
          rcases ih (i + 1) h with ⟨K, hK, hlast⟩
          refine ⟨K, hK, ?_⟩
          have hne : (gateGo probe d (i + 1) n).1 ≠ [] := by
            intro hnil
            rw [hnil] at hlast
            simp at hlast
          rcases hx : (gateGo probe d (i + 1) n).1 with _ | ⟨a, t⟩
          · exact absurd hx hne
          · rw [hx] at hlast
            simpa using hlast

/-- C1: for every probe and every `K` with `1 ≤ K ≤ maxAttempts`, if the
probe returns `false` on attempts `1..K-1` and `true` on attempt `K`,
the startup gate resolves healthy with the trace of `K-1` failed
attempts each followed by one `delayMs` sleep and then the successful
attempt: exactly `K` probe calls, exactly `K-1` sleeps all of `delayMs`,
the last event is the successful probe call (so no sleep after it), and
no attempt beyond `K` occurs. -/
theorem gate_resolves_after_K_attempts (probe : Nat → Bool)
    (maxAttempts delayMs K : Nat) (hK1 : 1 ≤ K) (hK2 : K ≤ maxAttempts)
    (hfail : ∀ j, 1 ≤ j → j < K → probe j = false) (hsucc : probe K = true) :
    startupGate probe maxAttempts delayMs =
      (failEvents delayMs 1 (K - 1) ++ [Event.probeCall K true], true) ∧
    probeCount (startupGate probe maxAttempts delayMs).1 = K ∧
    sleepCount (startupGate probe maxAttempts delayMs).1 = K - 1 ∧
    (∀ ms, Event.sleep ms ∈ (startupGate probe maxAttempts delayMs).1 →
      ms = delayMs) ∧
    (startupGate probe maxAttempts delayMs).1.getLast? =
      some (Event.probeCall K true) ∧
    (∀ j r, Event.probeCall j r ∈ (startupGate probe maxAttempts delayMs).1 →
      j ≤ K) := by
  have hmain : startupGate probe maxAttempts delayMs =
      (failEvents delayMs 1 (K - 1) ++ [Event.probeCall K true], true) := by
    have := gateGo_success probe delayMs maxAttempts 1 K hK1 (by omega)
      (fun j hj1 hj2 => hfail j hj1 hj2) hsucc
    simpa [startupGate] using this
  refine ⟨hmain, ?_, ?_, ?_, ?_, ?_⟩
  · rw [hmain]
    show probeCount (failEvents delayMs 1 (K - 1) ++
      [Event.probeCall K true]) = K
    rw [probeCount_append, probeCount_failEvents]
    show K - 1 + 1 = K
    omega
  · rw [hmain]
    show sleepCount (failEvents delayMs 1 (K - 1) ++
      [Event.probeCall K true]) = K - 1
    rw [sleepCount_append, sleepCount_failEvents]
    show K - 1 + 0 = K - 1
    omega
  · rw [hmain]
    intro ms hms
    rcases List.mem_append.1 hms with h | h
    · rcases mem_failEvents h with ⟨j, _, _, he⟩ | he
      · exact absurd he (by simp)
      · exact Event.sleep.inj he
    · simp at h
  · rw [hmain]
    exact getLast?_append_singleton _ _
  · rw [hmain]
    intro j r hj
    rcases List.mem_append.1 hj with h | h
    · rcases mem_failEvents h with ⟨j', hj1, hj2, he⟩ | he
      · cases he; omega
      · exact absurd he (by simp)
    · simp at h
      omega

/-- Witness for C1: probe true exactly on attempt 2, `maxAttempts = 3`,
`delayMs = 5`: the gate resolves with one failed attempt, one 5 ms
sleep, then the successful second attempt. -/
theorem gate_resolves_after_K_attempts_witness :
    startupGate (fun n => decide (n = 2)) 3 5 =
      (failEvents 5 1 1 ++ [Event.probeCall 2 true], true) :=
  (gate_resolves_after_K_attempts (fun n => decide (n = 2)) 3 5 2
    (by decide) (by decide)
    (fun j _ hj2 => by
      simp only [decide_eq_false_iff_not]
      omega)
    (by decide)).1

/-- C2: for every probe that returns `false` on every invocation, `main`
makes exactly `maxAttempts` (= 30) probe calls, sleeps `delayMs`
(= 2000 ms) between consecutive calls but not after the last one, then
logs the operator-facing failure message naming the attempt count and
terminates with exit code 1 as the final event (and never binds the
listener). -/
theorem gate_exhaustion_exits (config : Config) (probe : Nat → Bool)
    (hfail : ∀ j, probe j = false) :
    runMain (.ok config) probe =
      failEvents mainDelayMs 1 (mainMaxAttempts - 1) ++
        [Event.probeCall mainMaxAttempts false,
         Event.errorLog mainMaxAttempts, Event.exit 1] ∧
    probeCount (runMain (.ok config) probe) = mainMaxAttempts ∧
    sleepCount (runMain (.ok config) probe) = mainMaxAttempts - 1 ∧
    (∀ ms, Event.sleep ms ∈ runMain (.ok config) probe →
      ms = mainDelayMs) ∧
    (runMain (.ok config) probe).getLast? = some (Event.exit 1) ∧
    (∀ p, Event.listen p ∉ runMain (.ok config) probe) := by
  have hgate := gateGo_fail probe mainDelayMs mainMaxAttempts 1
    (by simp [mainMaxAttempts]) (fun j _ _ => hfail j)
  have hone : 1 + (mainMaxAttempts - 1) = mainMaxAttempts := by
    simp [mainMaxAttempts]
  rw [hone] at hgate
  have hmain : runMain (.ok config) probe =
      failEvents mainDelayMs 1 (mainMaxAttempts - 1) ++
        [Event.probeCall mainMaxAttempts false,
         Event.errorLog mainMaxAttempts, Event.exit 1] := by
    show (let gate := startupGate probe mainMaxAttempts mainDelayMs
      if gate.2 then gate.1 ++ [Event.listen config.mcpPort]
      else gate.1 ++ [Event.errorLog mainMaxAttempts, Event.exit 1]) = _
    rw [startupGate, hgate]
    simp [List.append_assoc]
  refine ⟨hmain, ?_, ?_, ?_, ?_, ?_⟩
  · rw [hmain, probeCount_append, probeCount_failEvents]
    show mainMaxAttempts - 1 + 1 = mainMaxAttempts
    simp [mainMaxAttempts]
  · rw [hmain, sleepCount_append, sleepCount_failEvents]
    show mainMaxAttempts - 1 + 0 = mainMaxAttempts - 1
    omega
  · rw [hmain]
    intro ms hms
    rcases List.mem_append.1 hms with h | h
    · rcases mem_failEvents h with ⟨j, _, _, he⟩ | he
      · exact absurd he (by simp)
      · exact Event.sleep.inj he
    · simp at h
  · rw [hmain]
    have : failEvents mainDelayMs 1 (mainMaxAttempts - 1) ++
        [Event.probeCall mainMaxAttempts false,
         Event.errorLog mainMaxAttempts, Event.exit 1] =
        (failEvents mainDelayMs 1 (mainMaxAttempts - 1) ++
          [Event.probeCall mainMaxAttempts false,
           Event.errorLog mainMaxAttempts]) ++ [Event.exit 1] := by
      simp [List.append_assoc]
    rw [this]
    exact getLast?_append_singleton _ _
  · rw [hmain]
    intro p hp
    rcases List.mem_append.1 hp with h | h
    · rcases mem_failEvents h with ⟨j, _, _, he⟩ | he
      · simp at he
      · simp at he
    · simp at h

/-- Witness for C2: with the always-false probe and a concrete loaded
config, `main` produces the full exhaustion trace: 30 failed probe
calls with 29 interleaved 2000 ms sleeps, the failure log naming 30
attempts, and exit code 1. -/
theorem gate_exhaustion_exits_witness :
    runMain (.ok ⟨"http://localhost:8123", "test-key", 3001⟩)
        (fun _ => false) =
      failEvents mainDelayMs 1 (mainMaxAttempts - 1) ++
        [Event.probeCall mainMaxAttempts false,
         Event.errorLog mainMaxAttempts, Event.exit 1] :=
  (gate_exhaustion_exits ⟨"http://localhost:8123", "test-key", 3001⟩
    (fun _ => false) (fun _ => rfl)).1

/-- C3: `checkClickHouseHealth` never propagates an error to its caller:
for every outcome of the native ping it resolves with some boolean, that
boolean is `false` whenever the native ping rejects or resolves
unsuccessfully, and it is `true` exactly when the native ping resolves
with the explicit success signal. -/
theorem checkHealth_never_throws (o : PingOutcome) :
    ∃ b, checkClickHouseHealth o = .ok b ∧
      (b = true ↔ o = .resolved true) := by
  cases o with
  | resolved s =>
      refine ⟨s, rfl, ?_⟩
      cases s <;> simp
  | rejected => exact ⟨false, rfl, by simp⟩

/-- C4: for every probe outcome (native ping resolving `true`, resolving
`false`, or rejecting), `ping` resolves — never fails outward — with a
`PingResult` whose `status` is `"ok"` exactly when its `clickhouse`
reachability boolean is `true`, and whose timestamp is the production
time. -/
theorem ping_status_iff_reachable (o : PingOutcome) (now : String) :
    ∃ r, ping o now = .ok r ∧
      (r.status = "ok" ↔ r.clickhouse = true) ∧ r.timestamp = now := by
  cases o with
  | resolved s =>
      cases s with
      | true => exact ⟨⟨"ok", true, now⟩, rfl, by simp, rfl⟩
      | false => exact ⟨⟨"error", false, now⟩, rfl, by simp, rfl⟩
  | rejected => exact ⟨⟨"error", false, now⟩, rfl, by simp, rfl⟩

/-- C5: a `POST /mcp` request with no `Authorization` header is answered
`401`, and so is one whose header value is not exactly
`"Bearer " ++ secret` (case-sensitive exact-string compare); in both
cases the request is never dispatched to the tool registry, for every
configured secret, backing-store state and timestamp. -/
theorem mcp_auth_rejects (secret : String) (o : PingOutcome) (now : String)
    (v : String) (hv : v ≠ "Bearer " ++ secret) :
    handleRequest secret o now ⟨"POST", "/mcp", none⟩ =
      { status := 401, body := .empty, dispatched := false } ∧
    handleRequest secret o now ⟨"POST", "/mcp", some v⟩ =
      { status := 401, body := .empty, dispatched := false } := by
  constructor
  · simp [handleRequest]
  · simp [handleRequest, hv]

/-- Witness for C5: the test fixture's secret `"test-secret-key"` and
the wrong token `"Bearer wrong-key"` are both rejected with `401` and
no dispatch. -/
theorem mcp_auth_rejects_witness :
    handleRequest "test-secret-key" .rejected "t"
        ⟨"POST", "/mcp", none⟩ =
      { status := 401, body := .empty, dispatched := false } ∧
    handleRequest "test-secret-key" .rejected "t"
        ⟨"POST", "/mcp", some "Bearer wrong-key"⟩ =
      { status := 401, body := .empty, dispatched := false } :=
  mcp_auth_rejects "test-secret-key" .rejected "t" "Bearer wrong-key"
    (by decide)

/-- C6: a `GET /health` request is answered `200` with body
`{ status: "ok" }` and no dispatch to the tool registry, for every
configured secret, every backing-store reachability outcome, and
whatever `Authorization` header (including none) was presented. -/
theorem health_always_ok (secret : String) (o : PingOutcome) (now : String)
    (auth : Option String) :
    handleRequest secret o now ⟨"GET", "/health", auth⟩ =
      { status := 200, body := .statusOk, dispatched := false } := by
  simp [handleRequest]

lemma one_le_length_iff (s : String) : 1 ≤ s.length ↔ s ≠ "" := by
  rw [String.length]
  cases s with
  | mk data =>
      simp [String.ext_iff, Nat.one_le_iff_ne_zero, List.length_eq_zero]

lemma orUndefined_eq_self {x : Option String} (h : x ≠ some "") :
    orUndefined x = x := by
  cases x with
  | none => rfl
  | some s =>
      have : s ≠ "" := fun he => h (he ▸ rfl)
      simp [orUndefined, this]

lemma parseUrlField_ok_iff (V : String → Bool) (u : Option String) :
    (∃ s, parseUrlField V u = .ok s) ↔ ∀ x, u = some x → V x = true := by
  cases u with
  | none => simp [parseUrlField]
  | some x =>
      by_cases h : V x = true <;> simp [parseUrlField, h]

lemma parseApiKeyField_ok_iff (k : Option String) :
    (∃ s, parseApiKeyField k = .ok s) ↔ ∃ x, k = some x ∧ x ≠ "" := by
  cases k with
  | none => simp [parseApiKeyField]
  | some x =>
      by_cases h : 1 ≤ x.length
      · simp [parseApiKeyField, h, (one_le_length_iff x).1 h]
      · have := (not_iff_not.2 (one_le_length_iff x)).1 h
        simp [parseApiKeyField, h]
        simp at this
        exact this

lemma parsePortField_ok_iff (N : String → Option ℚ) (p : Option String) :
    (∃ n, parsePortField N p = .ok n) ↔
      ∀ s, p = some s → ∃ q, N s = some q ∧ q.den = 1 ∧ 0 < q := by
  cases p with
  | none => simp [parsePortField]
  | some s =>
      cases hN : N s with
      | none => simp [parsePortField, hN]
      | some q =>
          by_cases hden : q.den = 1
          · by_cases hpos : (0 : ℚ) < q
            · simp [parsePortField, hN, hden, hpos]
            · simp [parsePortField, hN, hden, hpos]
          · simp [parsePortField, hN, hden]

lemma parseConfig_ok_iff (V : String → Bool) (N : String → Option ℚ)
    (a b c : Option String) :
    (∃ cfg, parseConfig V N a b c = .ok cfg) ↔
      (∃ s, parseUrlField V a = .ok s) ∧
      (∃ s, parseApiKeyField b = .ok s) ∧
      (∃ n, parsePortField N c = .ok n) := by
  cases hu : parseUrlField V a with
  | error e => simp [parseConfig, hu]
  | ok url =>
      cases hk : parseApiKeyField b with
      | error e => simp [parseConfig, hu, hk]
      | ok key =>
          cases hp : parsePortField N c with
          | error e => simp [parseConfig, hu, hk, hp]
          | ok port => simp [parseConfig, hu, hk, hp]

/-- C7: for every environment (with the one `|| undefined` corner — an
empty-but-set `CLICKHOUSE_URL`/`MCP_PORT` — set aside, see
`empty_env_vars_treated_as_absent`), `loadConfig` constructs a config
iff `MCP_API_KEY` is set to a non-empty string, `CLICKHOUSE_URL`
(if supplied) passes the URL parse, and `MCP_PORT` (if supplied)
coerces to an integer-valued positive number; any failure yields an
error and no `Config` value (construction is all-or-nothing, forced by
the `Except` result). -/
theorem loadConfig_ok_iff (V : String → Bool) (N : String → Option ℚ)
    (env : RawEnv) (hu : env.CLICKHOUSE_URL ≠ some "")
    (hp : env.MCP_PORT ≠ some "") :
    (∃ c, loadConfig V N env = .ok c) ↔
      ((∃ k, env.MCP_API_KEY = some k ∧ k ≠ "") ∧
       (∀ u, env.CLICKHOUSE_URL = some u → V u = true) ∧
       (∀ p, env.MCP_PORT = some p →
         ∃ q, N p = some q ∧ q.den = 1 ∧ 0 < q)) := by
  rw [loadConfig, orUndefined_eq_self hu, orUndefined_eq_self hp,
    parseConfig_ok_iff, parseUrlField_ok_iff, parseApiKeyField_ok_iff,
    parsePortField_ok_iff]
  tauto

/-- Witness for C7: the test fixture's environment (`CLICKHOUSE_URL`,
`MCP_API_KEY`, `MCP_PORT` all set to valid values) loads successfully. -/
theorem loadConfig_ok_iff_witness :
    ∃ c, loadConfig (fun _ => true) (fun _ => some 4000)
      ⟨some "http://clickhouse:8123", some "test-key", some "4000"⟩ =
        .ok c :=
  (loadConfig_ok_iff (fun _ => true) (fun _ => some 4000)
      ⟨some "http://clickhouse:8123", some "test-key", some "4000"⟩
      (by simp) (by simp)).mpr
    ⟨⟨"test-key", rfl, by simp⟩,
     fun u h => rfl,
     fun p h => ⟨4000, rfl, by norm_num, by norm_num⟩⟩

/-- C8: if the listener bind occurs in `main`'s trace then the config
loaded, the bound port is the configured one, some probe attempt within
the budget returned `true`, and the bind is the very last event,
immediately preceded by the trace of a gate whose final event is the
successful probe call — so `startHttpServer` is never invoked before
the gate has succeeded, and neither a config failure nor gate
exhaustion ever binds a listener. -/
theorem listen_only_after_gate_success (cfgRes : Except String Config)
    (probe : Nat → Bool) (p : Int)
    (h : Event.listen p ∈ runMain cfgRes probe) :
    (∃ c, cfgRes = .ok c ∧ p = c.mcpPort) ∧
    (∃ K, 1 ≤ K ∧ K ≤ mainMaxAttempts ∧ probe K = true) ∧
    (∃ es K, runMain cfgRes probe = es ++ [Event.listen p] ∧
      es.getLast? = some (Event.probeCall K true) ∧
      Event.listen p ∉ es) := by
  cases cfgRes with
  | error e => simp [runMain] at h
  | ok c =>
      have hnotin : ∀ q : Int, Event.listen q ∉
          (startupGate probe mainMaxAttempts mainDelayMs).1 := by
        intro q hq
        rcases mem_gateGo_shape probe mainDelayMs mainMaxAttempts 1 _ hq with
          ⟨j, r, he⟩ | ⟨ms, he⟩ <;> simp at he
      cases hg : (startupGate probe mainMaxAttempts mainDelayMs).2 with
      | false =>
          exfalso
          have hrm : runMain (.ok c) probe =
              (startupGate probe mainMaxAttempts mainDelayMs).1 ++
                [Event.errorLog mainMaxAttempts, Event.exit 1] := by
            simp [runMain, hg]
          rw [hrm] at h
          rcases List.mem_append.1 h with h' | h'
          · exact hnotin p h'
          · simp at h'
      | true =>
          have hrm : runMain (.ok c) probe =
              (startupGate probe mainMaxAttempts mainDelayMs).1 ++
                [Event.listen c.mcpPort] := by
            simp [runMain, hg]
          have hpc : p = c.mcpPort := by
            rw [hrm] at h
            rcases List.mem_append.1 h with h' | h'
            · exact absurd h' (hnotin p)
            · simpa using h'
          refine ⟨⟨c, rfl, hpc⟩, ?_, ?_⟩
          · rcases (gateGo_snd_true_iff probe mainDelayMs mainMaxAttempts 1).1
              hg with ⟨K, hK1, hK2, hK⟩
            exact ⟨K, hK1, by omega, hK⟩
          · rcases gateGo_snd_true_getLast probe mainDelayMs mainMaxAttempts 1
              hg with ⟨K, _, hlast⟩
            exact ⟨(startupGate probe mainMaxAttempts mainDelayMs).1, K,
              hpc ▸ hrm, hlast, hnotin p⟩

/-- Witness for C8: with a loaded config and a probe healthy on the
first attempt, `main`'s trace contains the listener bind, so some
probe attempt within the budget returned `true`. -/
theorem listen_only_after_gate_success_witness :
    ∃ K, 1 ≤ K ∧ K ≤ mainMaxAttempts ∧ (fun _ => true) K = true :=
  (listen_only_after_gate_success
    (.ok ⟨"http://localhost:8123", "test-key", 3001⟩) (fun _ => true) 3001
    (by decide)).2.1

/-- C10: `loadConfig` coerces an empty-string `CLICKHOUSE_URL` or
`MCP_PORT` to `undefined` before validation (`x || undefined`), so both
fall back to the defaults `http://localhost:8123` and `3001` no matter
how the URL validator or number coercion would treat `""` — while an
empty `MCP_API_KEY` is passed through unchanged and fails validation,
so no config is ever constructed from it. -/
theorem empty_env_vars_treated_as_absent (V : String → Bool)
    (N : String → Option ℚ) (k : String) (hk : k ≠ "") :
    loadConfig V N ⟨some "", some k, some ""⟩ =
      .ok { clickhouseUrl := "http://localhost:8123", mcpApiKey := k
            mcpPort := 3001 } ∧
    (∀ u p, ¬ ∃ c, loadConfig V N ⟨u, some "", p⟩ = .ok c) := by
  constructor
  · have hlen : 1 ≤ k.length := (one_le_length_iff k).2 hk
    simp [loadConfig, orUndefined, parseConfig, parseUrlField,
      parseApiKeyField, parsePortField, hlen]
  · intro u p hc
    rw [loadConfig, parseConfig_ok_iff] at hc
    rcases hc with ⟨-, hkey, -⟩
    rw [parseApiKeyField_ok_iff] at hkey
    rcases hkey with ⟨x, hx, hx2⟩
    exact hx2 (Option.some.inj hx).symm

/-- Witness for C10: even with a URL validator that rejects everything
and a number coercion that always yields `NaN`, empty `CLICKHOUSE_URL`
and `MCP_PORT` values still load as the two defaults. -/
theorem empty_env_vars_treated_as_absent_witness :
    loadConfig (fun _ => false) (fun _ => none)
        ⟨some "", some "test-key", some ""⟩ =
      .ok { clickhouseUrl := "http://localhost:8123"
            mcpApiKey := "test-key", mcpPort := 3001 } :=
  (empty_env_vars_treated_as_absent (fun _ => false) (fun _ => none)
    "test-key" (by simp)).1

end Monitoring
